import Mathlib

/-!
Verification development for the ecospace-backend catalog engine.

The definitions below are a shallow embedding of the JavaScript source:
controllers, services and validators are modelled as pure Lean functions,
the Sequelize store as an explicit list of rows, thrown errors as
Except results.  JavaScript truthiness is modelled explicitly, since the
source guards optional fields with bare truthiness checks.
-/

/-- JavaScript runtime values as they appear in request bodies.  A missing
key (undefined) is modelled as Option.none around this type. -/
inductive JSVal where
  | num (q : ℚ)
  | str (s : String)
  | bool (b : Bool)
  | null
deriving DecidableEq, Repr

/-- JavaScript truthiness of a value: 0, the empty string, false and null
are falsy. -/
def JSVal.truthy : JSVal → Bool
  | .num q => q != 0
  | .str s => s != ""
  | .bool b => b
  | .null => false

/-- Truthiness of a possibly absent value: undefined is falsy. -/
def jsvTruthy : Option JSVal → Bool
  | none => false
  | some v => v.truthy

/-- Truthiness of a possibly absent number (undefined and 0 are falsy). -/
def truthyQ : Option ℚ → Bool
  | none => false
  | some q => q != 0

/-- Truthiness of a possibly absent integer (undefined and 0 are falsy). -/
def truthyZ : Option ℤ → Bool
  | none => false
  | some z => z != 0

/-- Truthiness of a possibly absent string (undefined and the empty string
are falsy). -/
def truthyS : Option String → Bool
  | none => false
  | some s => s != ""

/-- JavaScript comparison a > b on possibly absent numbers: any comparison
with undefined is false (NaN semantics). -/
def jsGtQ : Option ℚ → Option ℚ → Bool
  | some a, some b => a > b
  | _, _ => false

/-- JavaScript comparison a < b on possibly absent numbers: any comparison
with undefined is false (NaN semantics). -/
def jsLtQ : Option ℚ → Option ℚ → Bool
  | some a, some b => a < b
  | _, _ => false

/-- JavaScript String.prototype.trim, modelled directly on the character
list so that it evaluates inside the kernel. -/
def jsTrim (s : String) : String :=
  ⟨(((s.data.dropWhile Char.isWhitespace).reverse).dropWhile Char.isWhitespace).reverse⟩

/-- JavaScript String.prototype.toLowerCase, on the character list. -/
def jsToLower (s : String) : String :=
  ⟨s.data.map Char.toLower⟩

/-- Math.ceil of a natural division, as used for totalPages. -/
def mathCeilDiv (a b : ℕ) : ℕ := (a + b - 1) / b

/-- Pagination metadata as assembled by the list services.  The two
optional flags are only attached to the response object in special cases,
hence Option Bool with none meaning the key is omitted. -/
structure PaginationMeta where
  currentPage : ℕ
  pageSize : ℕ
  totalItems : ℕ
  totalPages : ℕ
  hasPreviousPage : Bool
  hasNextPage : Bool
  hasExceededPage : Option Bool
  maxLimitApplied : Option Bool
deriving DecidableEq, Repr

/-- Response envelope of a list service: rows plus pagination metadata. -/
structure ListResult (α : Type) where
  data : List α
  pagination : PaginationMeta

/-- getAllSoils of soil-service.js.  The Sequelize call
findAndCountAll with limit and offset over the (already filtered and
ordered) table is modelled as count = length and rows = drop-take.
The metadata block is lines 70-82 of the source: note that
hasPreviousPage is computed as page < totalPages AND page > 1, that
hasExceededPage is attached only when count is truthy, and that
maxLimitApplied is attached when limit equals the soil maximum 50. -/
def getAllSoils {α : Type} (table : List α) (limit page : ℕ) : ListResult α :=
  let offset := (page - 1) * limit
  let count := table.length
  let rows := (table.drop offset).take limit
  let pageSize := limit
  let totalPages := mathCeilDiv count pageSize
  let hasPreviousPage := decide (page < totalPages) && decide (1 < page)
  let hasNextPage := decide (page < totalPages)
  let hasExceededPage := decide (totalPages < page)
  let maxLimitApplied := decide (limit = 50)
  { data := rows
    pagination :=
      { currentPage := page
        pageSize := pageSize
        totalItems := count
        totalPages := totalPages
        hasPreviousPage := hasPreviousPage
        hasNextPage := hasNextPage
        hasExceededPage := if decide (count ≠ 0) && hasExceededPage then some hasExceededPage else none
        maxLimitApplied := if maxLimitApplied then some maxLimitApplied else none } }

/-- getAllPlants of plant-service.js (the revision taking pagination,
sorting and filters, wired to the current plant controller).  Identical
metadata assembly to getAllSoils except that hasPreviousPage is
page > 1 and the maximum limit is 100. -/
def getAllPlants {α : Type} (table : List α) (limit page : ℕ) : ListResult α :=
  let offset := (page - 1) * limit
  let count := table.length
  let rows := (table.drop offset).take limit
  let pageSize := limit
  let totalPages := mathCeilDiv count pageSize
  let hasPreviousPage := decide (1 < page)
  let hasNextPage := decide (page < totalPages)
  let hasExceededPage := decide (totalPages < page)
  let maxLimitApplied := decide (limit = 100)
  { data := rows
    pagination :=
      { currentPage := page
        pageSize := pageSize
        totalItems := count
        totalPages := totalPages
        hasPreviousPage := hasPreviousPage
        hasNextPage := hasNextPage
        hasExceededPage := if decide (count ≠ 0) && hasExceededPage then some hasExceededPage else none
        maxLimitApplied := if maxLimitApplied then some maxLimitApplied else none } }

/-- parseInt(raw, 10) OR default: the raw query value is modelled as an
already parsed optional integer, none standing for an absent or
non-numeric value (NaN); a parse result of 0 is falsy, so the OR also
replaces it with the default. -/
def jsParseIntOr (v : Option ℤ) (d : ℤ) : ℤ :=
  match v with
  | none => d
  | some x => if x = 0 then d else x

/-- Effective limit computed by fetchAllPlants in plant-controller.js:
Math.min(MAX_LIMIT, Math.max(DEFAULT_LIMIT, parseInt(limit, 10) OR
DEFAULT_LIMIT)) with MAX_LIMIT = 100 and DEFAULT_LIMIT = 10. -/
def plantEffectiveLimit (raw : Option ℤ) : ℤ :=
  min 100 (max 10 (jsParseIntOr raw 10))

/-- Effective limit computed by fetchAllSoils in soil-controller.js:
same clamp with MAX_LIMIT = 50 and DEFAULT_LIMIT = 10. -/
def soilEffectiveLimit (raw : Option ℤ) : ℤ :=
  min 50 (max 10 (jsParseIntOr raw 10))

/-- Effective page computed by both list controllers:
Math.max(DEFAULT_PAGE, parseInt(page, 10) OR DEFAULT_PAGE). -/
def effectivePage (raw : Option ℤ) : ℤ :=
  max 1 (jsParseIntOr raw 1)

/-- A persisted Soil row, restricted to the fields the claims touch.
Closed-set enum fields (drainage, texture, ...) are carried opaquely as
strings; ph values are FLOAT columns, modelled as rationals. -/
structure SoilRecord where
  name : String
  color : Option String := none
  description : Option String := none
  phMin : Option ℚ := none
  phMax : Option ℚ := none
  phType : Option String := none
deriving DecidableEq, Repr

/-- The body of a soil creation request after the middleware has run:
ph values are numbers in range, optional fields possibly absent.  The
controller destructures only the listed keys, so a client supplied
ph_type key is never read; it is carried here to make that explicit. -/
structure SoilCreateBody where
  name : String
  color : Option String := none
  description : Option String := none
  ph_min : Option ℚ := none
  ph_max : Option ℚ := none
  ph_type : Option String := none
deriving DecidableEq, Repr

/-- The soilDetails object built by createSoil in soil-controller.js:
optional properties are copied only when truthy (if (phMax)
soilDetails.phMax = phMax, and so on); ph_type from the body is ignored. -/
def createSoilDetails (b : SoilCreateBody) : SoilRecord :=
  { name := b.name
    color := if truthyS b.color then b.color else none
    description := if truthyS b.description then b.description else none
    phMax := if truthyQ b.ph_max then b.ph_max else none
    phMin := if truthyQ b.ph_min then b.ph_min else none
    phType := none }

/-- The ternary phMax > 7 ? alkaline : phMin < 7 ? acidic : neutral used by
saveSoil and updateSoilDetails; comparisons against an absent operand are
false, as in JavaScript. -/
def derivePhType (phMax phMin : Option ℚ) : String :=
  if jsGtQ phMax (some 7) then "alkaline"
  else if jsLtQ phMin (some 7) then "acidic"
  else "neutral"

/-- saveSoil of soil-service.js: the phType is set only when both phMin
and phMax are truthy; Soil.create then persists the details as given. -/
def saveSoil (soilDetails : SoilRecord) : SoilRecord :=
  if truthyQ soilDetails.phMin && truthyQ soilDetails.phMax then
    { soilDetails with phType := some (derivePhType soilDetails.phMax soilDetails.phMin) }
  else soilDetails

/-- A partial-update payload for Soil as built by the update controller:
every column absent from the payload is left untouched by Soil.update. -/
structure SoilPatchPayload where
  name : Option String := none
  color : Option String := none
  description : Option String := none
  phMin : Option ℚ := none
  phMax : Option ℚ := none
  phType : Option String := none
deriving DecidableEq, Repr

/-- Sequelize Soil.update: columns present in the payload overwrite the
stored row, all other columns keep their stored values. -/
def applySoilPatch (soil : SoilRecord) (p : SoilPatchPayload) : SoilRecord :=
  { name := p.name.getD soil.name
    color := if p.color.isSome then p.color else soil.color
    description := if p.description.isSome then p.description else soil.description
    phMin := if p.phMin.isSome then p.phMin else soil.phMin
    phMax := if p.phMax.isSome then p.phMax else soil.phMax
    phType := if p.phType.isSome then p.phType else soil.phType }

/-- The try block of updateSoilDetails in soil-service.js, lines 157-188,
applied to the soil row found by primary key.  The source destructures
ph_max and ph_min out of soil.toJSON(), but the Soil model attributes are
the camelCase phMax and phMin (underscored only renames database
columns, and the controllers convert responses with toSnakeCaseKeys
precisely because toJSON yields camelCase keys), so phMaxDb and phMinDb
are always undefined: the guard degenerates to both new bounds being
supplied, the new-vs-stored comparisons are dead, and on success phType
is recomputed from the new values alone. -/
def updateSoilDetailsInner (soil : SoilRecord) (soilDetails : SoilPatchPayload) :
    Except String SoilRecord :=
  let phMaxDb : Option ℚ := none
  let phMinDb : Option ℚ := none
  let phMax := soilDetails.phMax
  let phMin := soilDetails.phMin
  if (truthyQ phMaxDb && truthyQ phMinDb) ||
      (!truthyQ phMaxDb && !truthyQ phMinDb && truthyQ phMax && truthyQ phMin) then
    if (truthyQ phMin && !truthyQ phMax && jsGtQ phMin phMaxDb) ||
        (truthyQ phMax && truthyQ phMin && jsGtQ phMin phMax) then
      .error "ph_min is greater than ph_max"
    else if (truthyQ phMax && !truthyQ phMin && jsLtQ phMax phMinDb) ||
        (truthyQ phMax && truthyQ phMin && jsLtQ phMax phMin) then
      .error "ph_max is lesser than ph_min"
    else
      .ok (applySoilPatch soil { soilDetails with phType := some (derivePhType phMax phMin) })
  else
    .ok (applySoilPatch soil soilDetails)

/-- updateSoilDetails as seen by its caller: the catch block of the
service logs the original message and rethrows a generic error, so every
failure surfaces as Failed to update soil. -/
def updateSoilDetails (soil : SoilRecord) (soilDetails : SoilPatchPayload) :
    Except String SoilRecord :=
  match updateSoilDetailsInner soil soilDetails with
  | .ok r => .ok r
  | .error _ => .error "Failed to update soil"

/-- The closed growth-stage vocabulary PLANT_GROWTH_STAGE. -/
def PLANT_GROWTH_STAGE : List String :=
  ["budding", "flowering", "fruiting", "germination", "harvesting", "seedling", "vegetative"]

/-- A persisted GrowthStage row, restricted to the fields the claims
touch. -/
structure GrowthStageRecord where
  name : String
  order : ℤ
  description : Option String := none
  minDays : Option ℤ := none
  maxDays : Option ℤ := none
deriving DecidableEq, Repr

/-- Body of a growth-stage partial update request; day values arrive as
numbers (express-validator coerces the operands of the comparisons). -/
structure GrowthStageUpdateBody where
  description : Option String := none
  min_days : Option ℤ := none
  max_days : Option ℤ := none
deriving DecidableEq, Repr

/-- The body(description) chain of updateGrowthStageValidator: optional,
trimmed, must be non-empty. -/
def validateDescription (b : GrowthStageUpdateBody) : Except String Unit :=
  match b.description with
  | none => .ok ()
  | some s => if jsTrim s = "" then .error "description is required" else .ok ()

/-- The body(max_days) chain of updateGrowthStageValidator: optional,
integer at least 1, and the custom check compares the new value against
req.body.min_days, i.e. only against a min_days supplied in the same
request (and skips it when that value is falsy). -/
def validateMaxDays (b : GrowthStageUpdateBody) : Except String Unit :=
  match b.max_days with
  | none => .ok ()
  | some v =>
    if v < 1 then .error "max_days must be a natural number"
    else if truthyZ b.min_days && decide (v ≤ b.min_days.getD 0) then
      .error "max_days must be greater than min_days"
    else .ok ()

/-- The body(min_days) chain of updateGrowthStageValidator: optional,
integer at least 0, custom check against req.body.max_days only. -/
def validateMinDays (b : GrowthStageUpdateBody) : Except String Unit :=
  match b.min_days with
  | none => .ok ()
  | some v =>
    if v < 0 then .error "min_days must be a whole number"
    else if truthyZ b.max_days && decide (v ≥ b.max_days.getD 0) then
      .error "min_days must be lesser than max_days"
    else .ok ()

/-- updateGrowthStageValidator of growth-stage-middleware.js. -/
def updateGrowthStageValidator (b : GrowthStageUpdateBody) : Except String Unit := do
  validateDescription b
  validateMaxDays b
  validateMinDays b

/-- Body of a growth-stage creation request. -/
structure GrowthStageCreateBody where
  name : String
  order : ℤ
  description : Option String := none
  min_days : Option ℤ := none
  max_days : Option ℤ := none
deriving DecidableEq, Repr

/-- createGrowthStageValidator of growth-stage-middleware.js: the
required name and order chains, followed by the update validator items
(the middleware concatenates the two arrays). -/
def createGrowthStageValidator (b : GrowthStageCreateBody) : Except String Unit := do
  if !PLANT_GROWTH_STAGE.contains (jsToLower (jsTrim b.name)) then
    throw "growth stage must be one of the growth stage vocabulary"
  if b.order < 1 then throw "order must be a natural number"
  updateGrowthStageValidator
    { description := b.description, min_days := b.min_days, max_days := b.max_days }

/-- The model-level validations of GrowthStage.js run on a full instance
at creation: column ranges plus the minLessThanMax model validator. -/
def growthStageModelValidateFull (r : GrowthStageRecord) : Except String Unit := do
  if r.order < 1 then throw "Validation min on order failed"
  match r.maxDays with
  | some v => if v < 1 then throw "Validation min on maxDays failed" else pure ()
  | none => pure ()
  match r.minDays with
  | some v => if v < 0 then throw "Validation min on minDays failed" else pure ()
  | none => pure ()
  match r.minDays, r.maxDays with
  | some mn, some mx =>
    if mn ≥ mx then throw "minDays must be less than maxDays" else pure ()
  | _, _ => pure ()

/-- The creation pipeline for a growth stage: createGrowthStageValidator
on the route, then createGrowthStage in the controller (which copies
min/max days whenever they are not undefined or null), then
saveGrowthStage calling GrowthStage.create, whose validation failure is
rethrown by the service catch block as a generic error. -/
def createGrowthStage (b : GrowthStageCreateBody) : Except String GrowthStageRecord := do
  createGrowthStageValidator b
  let details : GrowthStageRecord :=
    { name := b.name, order := b.order, description := b.description
      maxDays := b.max_days, minDays := b.min_days }
  match growthStageModelValidateFull details with
  | .error _ => .error "Failed to save growth stage"
  | .ok _ => .ok details

/-- A partial-update payload for GrowthStage as built by the controller. -/
structure GrowthStagePatchPayload where
  description : Option String := none
  minDays : Option ℤ := none
  maxDays : Option ℤ := none
deriving DecidableEq, Repr

/-- Lines 212-217 of the growth-stage controller: the update object gets
a field only when the body value is truthy; the controller also rejects a
body containing none of the allow-listed keys. -/
def buildGrowthStagePatch (b : GrowthStageUpdateBody) : Except String GrowthStagePatchPayload :=
  if b.description = none ∧ b.min_days = none ∧ b.max_days = none then
    .error "No details to update"
  else
    .ok { description := if truthyS b.description then b.description else none
          maxDays := if truthyZ b.max_days then b.max_days else none
          minDays := if truthyZ b.min_days then b.min_days else none }

/-- Sequelize GrowthStage.update: supplied columns overwrite the stored
row, the others are untouched. -/
def applyGrowthStagePatch (g : GrowthStageRecord) (p : GrowthStagePatchPayload) :
    GrowthStageRecord :=
  { g with
    description := if p.description.isSome then p.description else g.description
    minDays := if p.minDays.isSome then p.minDays else g.minDays
    maxDays := if p.maxDays.isSome then p.maxDays else g.maxDays }

/-- The model validation run by GrowthStage.update: Sequelize validates
an instance built from the supplied values only, so minLessThanMax sees
the stored row on neither side and fires only when both bounds are in the
payload. -/
def growthStageModelValidateValues (p : GrowthStagePatchPayload) : Except String Unit := do
  match p.maxDays with
  | some v => if v < 1 then throw "Validation min on maxDays failed" else pure ()
  | none => pure ()
  match p.minDays with
  | some v => if v < 0 then throw "Validation min on minDays failed" else pure ()
  | none => pure ()
  match p.minDays, p.maxDays with
  | some mn, some mx =>
    if mn ≥ mx then throw "minDays must be less than maxDays" else pure ()
  | _, _ => pure ()

/-- updateGrowthStageDetails of growth-stage-service.js: a plain
GrowthStage.update on the payload, errors rethrown generically; the
service performs no comparison against the stored row. -/
def updateGrowthStageDetails (stored : GrowthStageRecord) (p : GrowthStagePatchPayload) :
    Except String GrowthStageRecord :=
  match growthStageModelValidateValues p with
  | .error _ => .error "Failed to update growth stage"
  | .ok _ => .ok (applyGrowthStagePatch stored p)

/-- The whole partial-update pipeline for an existing growth stage:
route middleware, controller, service. -/
def updateGrowthStageDetailsById (stored : GrowthStageRecord) (b : GrowthStageUpdateBody) :
    Except String GrowthStageRecord := do
  updateGrowthStageValidator b
  let p ← buildGrowthStagePatch b
  updateGrowthStageDetails stored p

/-- A persisted PestType row. -/
structure PestTypeRecord where
  id : ℕ
  name : String
  description : Option String := none
  isActive : Bool := true
deriving DecidableEq, Repr

/-- getAllPestTypes of pest-type-service.js: PestType.findAll with the
where isActive true clause unless inactive rows were asked for. -/
def getAllPestTypes (table : List PestTypeRecord) (isIncludeInActive : Bool) :
    List PestTypeRecord :=
  if isIncludeInActive then table else table.filter (fun r => r.isActive)

/-- removePestType of pest-type-service.js: a soft delete, implemented as
PestType.update setting isActive to false on the matching id. -/
def removePestType (table : List PestTypeRecord) (pestTypeId : ℕ) : List PestTypeRecord :=
  table.map (fun r => if r.id = pestTypeId then { r with isActive := false } else r)

/-- getSoilById of soil-service.js: Soil.findByPk, null when absent.  The
store is a list of id-row pairs. -/
def getSoilById (table : List (ℕ × SoilRecord)) (soilId : ℕ) : Option SoilRecord :=
  (table.find? (fun row => row.1 = soilId)).map (fun row => row.2)

/-- removeSoil of soil-service.js: Soil.destroy where id, a hard delete
removing the matching rows. -/
def removeSoil (table : List (ℕ × SoilRecord)) (soilId : ℕ) : List (ℕ × SoilRecord) :=
  table.filter (fun row => row.1 ≠ soilId)

/-- HTTP outcome of a delete handler. -/
structure DeleteResponse where
  status : ℕ
  message : Option String := none
deriving DecidableEq, Repr

/-- deleteSoilById of soil-controller.js: fetch the soil first, answer 404
Soil not found when it is absent, otherwise remove it and answer 204. -/
def deleteSoilById (table : List (ℕ × SoilRecord)) (soilId : ℕ) :
    DeleteResponse × List (ℕ × SoilRecord) :=
  match getSoilById table soilId with
  | none => ({ status := 404, message := some "Soil not found" }, table)
  | some _ => ({ status := 204 }, removeSoil table soilId)

/-- A Soil row (or update object) viewed as raw column values, for the
frame-effect claims about partial updates; exactly the columns in the
update allow-list of updateSoilDetailsById. -/
structure SoilRow where
  name : Option JSVal := none
  color : Option JSVal := none
  description : Option JSVal := none
  ph_min : Option JSVal := none
  ph_max : Option JSVal := none
deriving DecidableEq, Repr

/-- Lines 282-288 of soil-controller.js (updateSoilDetailsById): each
allow-listed field enters the update object only when its body value is
truthy. -/
def buildSoilUpdateDetails (b : SoilRow) : SoilRow :=
  { name := if jsvTruthy b.name then b.name else none
    color := if jsvTruthy b.color then b.color else none
    description := if jsvTruthy b.description then b.description else none
    ph_min := if jsvTruthy b.ph_min then b.ph_min else none
    ph_max := if jsvTruthy b.ph_max then b.ph_max else none }

/-- Sequelize update at the row level: only the columns present in the
update object are written. -/
def applySoilRowUpdate (row p : SoilRow) : SoilRow :=
  { name := if p.name.isSome then p.name else row.name
    color := if p.color.isSome then p.color else row.color
    description := if p.description.isSome then p.description else row.description
    ph_min := if p.ph_min.isSome then p.ph_min else row.ph_min
    ph_max := if p.ph_max.isSome then p.ph_max else row.ph_max }

/-- A GrowthStage row (or update object) as raw column values; exactly
the allow-list of updateGrowthStageDetailsById. -/
structure GrowthStageRow where
  description : Option JSVal := none
  min_days : Option JSVal := none
  max_days : Option JSVal := none
deriving DecidableEq, Repr

/-- Lines 212-217 of the growth-stage controller: truthy gate on the
allow-listed fields. -/
def buildGrowthStageUpdateDetails (b : GrowthStageRow) : GrowthStageRow :=
  { description := if jsvTruthy b.description then b.description else none
    min_days := if jsvTruthy b.min_days then b.min_days else none
    max_days := if jsvTruthy b.max_days then b.max_days else none }

/-- Sequelize update at the row level for GrowthStage. -/
def applyGrowthStageRowUpdate (row p : GrowthStageRow) : GrowthStageRow :=
  { description := if p.description.isSome then p.description else row.description
    min_days := if p.min_days.isSome then p.min_days else row.min_days
    max_days := if p.max_days.isSome then p.max_days else row.max_days }

/-- Helper for jsSetDedup: walk the list keeping the first occurrence of
each string, remembering in seen the strings already emitted. -/
def jsSetDedupAux (seen : List String) : List String → List String
  | [] => []
  | x :: xs =>
    if x ∈ seen then jsSetDedupAux seen xs
    else x :: jsSetDedupAux (x :: seen) xs

/-- First-occurrence deduplication, as performed by the JavaScript Set
constructor over an array of strings. -/
def jsSetDedup (l : List String) : List String := jsSetDedupAux [] l

/-- The customSanitizer of validateNonEmptyStringArray in
plant-middleware.js: keep the items that are strings with a non-blank
trim, trim them, and wrap the result in a Set. -/
def sanitizeStringArray (arr : List JSVal) : List String :=
  jsSetDedup (arr.filterMap (fun item =>
    match item with
    | .str s => if jsTrim s ≠ "" then some (jsTrim s) else none
    | _ => none))

/-- validateNonEmptyStringArray of plant-middleware.js on a supplied
field value: isArray with at least one element, then the sanitizer, then
the custom check that the sanitized array is still non-empty. -/
def validateNonEmptyStringArray (arr : List JSVal) : Except String (List String) :=
  if arr.length < 1 then .error "field must be a non-empty array"
  else
    let s := sanitizeStringArray arr
    if s.length > 0 then .ok s
    else .error "field must have at least one non-empty string"

/-- Ceiling division times the divisor dominates the dividend. -/
theorem le_mathCeilDiv_mul (a b : ℕ) (hb : 1 ≤ b) : a ≤ mathCeilDiv a b * b := by
  have h := Nat.div_add_mod (a + b - 1) b
  have h2 : (a + b - 1) % b < b := Nat.mod_lt _ (by omega)
  rw [mathCeilDiv, Nat.mul_comm]
  generalize hX : b * ((a + b - 1) / b) = X at h ⊢
  generalize hr : (a + b - 1) % b = r at h h2
  omega

/-- A page past the computed total selects an empty slice of the table. -/
theorem paged_rows_empty {α : Type} (t : List α) (limit page : ℕ) (hl : 1 ≤ limit)
    (h : mathCeilDiv t.length limit < page) :
    (t.drop ((page - 1) * limit)).take limit = ([] : List α) := by
  have h1 : t.length ≤ mathCeilDiv t.length limit * limit := le_mathCeilDiv_mul _ _ hl
  have h2 : mathCeilDiv t.length limit * limit ≤ (page - 1) * limit :=
    Nat.mul_le_mul_right _ (by omega)
  have h3 : t.drop ((page - 1) * limit) = [] := List.drop_eq_nil_of_le (by omega)
  simp [h3]

/-- The attachment rule for the hasExceededPage entry shared by the two
list services. -/
theorem exceeded_flag_iff (count tp page : ℕ) :
    ((if decide (count ≠ 0) && decide (tp < page) then some (decide (tp < page))
      else (none : Option Bool)) = some true) ↔ (0 < count ∧ tp < page) := by
  by_cases h1 : count = 0
  · simp [h1]
  · by_cases h2 : tp < page
    · simp [h1, h2]
      omega
    · simp [h1, h2]

/-- With an empty table the hasExceededPage entry is never attached. -/
theorem exceeded_flag_zero (tp page : ℕ) :
    (if decide ((0 : ℕ) ≠ 0) && decide (tp < page) then some (decide (tp < page))
      else (none : Option Bool)) = none := by
  simp

/-- C1: for a Soil creation payload supplying both bounds with valid
values, phType is claimed to be derived for every valid pair including
phMin = 0.  Evaluating the code at the failing input ph_min = 0,
ph_max = 5: the truthy guards of createSoil and saveSoil skip both the
copy of ph_min and the derivation, so the persisted record has no phMin
and no phType, where the claimed rule (restated by derivePhType) gives
acidic; a strictly positive pair is handled as claimed. -/
theorem c1_phMin_zero_skips_derivation :
    saveSoil (createSoilDetails { name := "loam", ph_min := some 0, ph_max := some 5 }) =
      { name := "loam", phMax := some 5 } ∧
    derivePhType (some 5) (some 0) = "acidic" ∧
    saveSoil (createSoilDetails { name := "peat", ph_min := some 6, ph_max := some 8 }) =
      { name := "peat", phMin := some 6, phMax := some 8, phType := some "alkaline" } := by
  refine ⟨by decide, by decide, by decide⟩

/-- C2: the minDays < maxDays invariant is checked at creation, and a
consistent single-bound patch succeeds; but evaluating the code at the
failing input (stored minDays = 10, patch of only max_days = 3) the
update pipeline succeeds and persists maxDays = 3 next to the stored
minDays = 10, because neither the middleware custom check (which reads
only req.body.min_days) nor the service nor the values-only model
validation ever compares against the stored opposite bound. -/
theorem c2_single_bound_patch_unchecked :
    createGrowthStage
      { name := "germination", order := 1, min_days := some 10, max_days := some 5 } =
      .error "max_days must be greater than min_days" ∧
    updateGrowthStageDetailsById
      { name := "germination", order := 1, minDays := some 10, maxDays := some 20 }
      { max_days := some 3 } =
      .ok { name := "germination", order := 1, minDays := some 10, maxDays := some 3 } ∧
    updateGrowthStageDetailsById
      { name := "germination", order := 1, minDays := some 10, maxDays := some 12 }
      { max_days := some 20 } =
      .ok { name := "germination", order := 1, minDays := some 10, maxDays := some 20 } := by
  refine ⟨rfl, rfl, rfl⟩

/-- C4: the claim says any requested limit in [1, maxLimit] is used
unchanged.  Evaluating the code: limit 500 is indeed clamped to 100 and
the metadata carries maxLimitApplied exactly at the maximum, but the
requested limit 5, although inside [1, 100], is raised to the default 10
by the Math.max(DEFAULT_LIMIT, ...) clamp of both controllers. -/
theorem c4_limit_lower_clamp_is_default :
    plantEffectiveLimit (some 500) = 100 ∧
    soilEffectiveLimit (some 500) = 50 ∧
    (getAllPlants (List.range 5) 100 1).pagination.maxLimitApplied = some true ∧
    (getAllPlants (List.range 5) 99 1).pagination.maxLimitApplied = none ∧
    ((1 : ℤ) ≤ 5 ∧ (5 : ℤ) ≤ 100) ∧
    plantEffectiveLimit (some 5) = 10 ∧
    soilEffectiveLimit (some 5) = 10 := by
  refine ⟨by decide, by decide, by decide, by decide, by decide, by decide, by decide⟩

/-- C5: the claim says hasPreviousPage is true iff currentPage > 1, in
particular on the last page of a multi-page result.  Evaluating the code
at totalItems = 95, pageSize = 10, page = 10: the plant service reports
hasPreviousPage = true as claimed, but the soil service computes
page < totalPages AND page > 1 and reports false on its last page. -/
theorem c5_soil_last_page_has_no_previous :
    (getAllSoils (List.range 95) 10 10).pagination.totalPages = 10 ∧
    (getAllSoils (List.range 95) 10 10).pagination.currentPage = 10 ∧
    (getAllSoils (List.range 95) 10 10).pagination.hasPreviousPage = false ∧
    (getAllPlants (List.range 95) 10 10).pagination.hasPreviousPage = true := by
  refine ⟨by decide, by decide, by decide, by decide⟩

/-- Membership in the deduplicated list: present in the input and not
among the already seen strings. -/
theorem jsSetDedupAux_mem (l : List String) :
    ∀ (seen : List String) (x : String),
      x ∈ jsSetDedupAux seen l ↔ (x ∈ l ∧ x ∉ seen) := by
  induction l with
  | nil => intro seen x; simp [jsSetDedupAux]
  | cons a l ih =>
    intro seen x
    by_cases h : a ∈ seen
    · rw [jsSetDedupAux, if_pos h, ih]
      constructor
      · rintro ⟨hx, hn⟩
        exact ⟨List.mem_cons_of_mem _ hx, hn⟩
      · rintro ⟨hx, hn⟩
        rcases List.mem_cons.mp hx with rfl | hx
        · exact absurd h hn
        · exact ⟨hx, hn⟩
    · rw [jsSetDedupAux, if_neg h, List.mem_cons, ih]
      constructor
      · rintro (rfl | ⟨hx, hn⟩)
        · exact ⟨List.mem_cons_self _ _, h⟩
        · refine ⟨List.mem_cons_of_mem _ hx, ?_⟩
          intro hs
          exact hn (List.mem_cons_of_mem _ hs)
      · rintro ⟨hx, hn⟩
        by_cases hxa : x = a
        · exact Or.inl hxa
        · right
          rcases List.mem_cons.mp hx with rfl | hx2
          · exact absurd rfl hxa
          · refine ⟨hx2, ?_⟩
            intro hs
            rcases List.mem_cons.mp hs with rfl | hs2
            · exact hxa rfl
            · exact hn hs2

/-- The deduplicated list has no duplicates. -/
theorem jsSetDedupAux_nodup (l : List String) :
    ∀ seen : List String, (jsSetDedupAux seen l).Nodup := by
  induction l with
  | nil => intro seen; simp [jsSetDedupAux]
  | cons a l ih =>
    intro seen
    by_cases h : a ∈ seen
    · rw [jsSetDedupAux, if_pos h]; exact ih seen
    · rw [jsSetDedupAux, if_neg h]
      refine List.nodup_cons.mpr ⟨?_, ih (a :: seen)⟩
      intro hmem
      exact ((jsSetDedupAux_mem l (a :: seen) a).mp hmem).2 (List.mem_cons_self _ _)

/-- Membership in jsSetDedup is membership in the input. -/
theorem jsSetDedup_mem (l : List String) (x : String) : x ∈ jsSetDedup l ↔ x ∈ l := by
  simp [jsSetDedup, jsSetDedupAux_mem]

/-- jsSetDedup removes all duplicates. -/
theorem jsSetDedup_nodup (l : List String) : (jsSetDedup l).Nodup :=
  jsSetDedupAux_nodup l []

/-- An undefined value is falsy. -/
theorem truthyQ_none : truthyQ none = false := rfl

/-- A JavaScript comparison with an undefined right operand is false. -/
theorem jsGtQ_none (x : Option ℚ) : jsGtQ x none = false := by
  cases x <;> rfl

/-- A JavaScript comparison with an undefined right operand is false. -/
theorem jsLtQ_none (x : Option ℚ) : jsLtQ x none = false := by
  cases x <;> rfl

/-- a < b and b > a are the same JavaScript comparison. -/
theorem jsLtQ_eq_jsGtQ (x y : Option ℚ) : jsLtQ x y = jsGtQ y x := by
  cases x <;> cases y <;> rfl

/-- C3 (counterexample): the claim says every Soil update with
out-of-order supplied bounds (new-vs-new, or new against the stored
opposite bound when only one is supplied) fails with one of the two
distinct messages surfaced to the caller.  At the concrete input of a
stored row with ph_min = 6, ph_max = 8 and a patch of only ph_min = 9
the update succeeds and persists ph_min = 9 beside ph_max = 8, because
the service reads the stored bounds under snake_case keys that
soil.toJSON() does not have; and when both new bounds are supplied out
of order the update does fail, but the surfaced message is the generic
Failed to update soil, not a distinct one. -/
theorem c3_counterexample_surfaced_message :
    updateSoilDetails { name := "loam", phMin := some 6, phMax := some 8 }
      { phMin := some 9 } =
      .ok { name := "loam", phMin := some 9, phMax := some 8 } ∧
    updateSoilDetails { name := "loam", phMin := some 6, phMax := some 8 }
      { phMin := some 9, phMax := some 8 } = .error "Failed to update soil" ∧
    ("Failed to update soil" ≠ "ph_min is greater than ph_max" ∧
      "Failed to update soil" ≠ "ph_max is lesser than ph_min") := by
  refine ⟨rfl, rfl, by decide⟩

/-- C3 (amended): a supplied pH bound is validated only against the
other bound supplied in the same payload.  When both new bounds are
supplied and ph_min > ph_max the update fails: the thrown message is
always ph_min is greater than ph_max (the ph_max is lesser than ph_min
branch is unreachable), and the error surfaced to the caller is the
generic Failed to update soil.  When either bound is missing from the
payload no comparison happens at all — the stored-bound reads are dead
because the service destructures snake_case keys from the camelCase
toJSON object — and the update succeeds even against an out-of-order
stored bound. -/
theorem c3_amended_update_messages (soil : SoilRecord) (d : SoilPatchPayload) :
    (truthyQ d.phMin = true → truthyQ d.phMax = true →
      jsGtQ d.phMin d.phMax = true →
      updateSoilDetailsInner soil d = .error "ph_min is greater than ph_max" ∧
      updateSoilDetails soil d = .error "Failed to update soil") ∧
    (truthyQ d.phMin = true → truthyQ d.phMax = true →
      jsGtQ d.phMin d.phMax = false →
      updateSoilDetails soil d =
        .ok (applySoilPatch soil
          { d with phType := some (derivePhType d.phMax d.phMin) })) ∧
    (truthyQ d.phMax = false →
      updateSoilDetails soil d = .ok (applySoilPatch soil d)) ∧
    (truthyQ d.phMin = false →
      updateSoilDetails soil d = .ok (applySoilPatch soil d)) ∧
    updateSoilDetailsInner soil d ≠ .error "ph_max is lesser than ph_min" := by
  refine ⟨?_, ?_, ?_, ?_, ?_⟩
  · intro h1 h2 h3
    have hin : updateSoilDetailsInner soil d = .error "ph_min is greater than ph_max" := by
      simp [updateSoilDetailsInner, truthyQ_none, h1, h2, h3, jsGtQ_none]
    exact ⟨hin, by simp [updateSoilDetails, hin]⟩
  · intro h1 h2 h3
    simp [updateSoilDetails, updateSoilDetailsInner, truthyQ_none, h1, h2, h3,
      jsGtQ_none, jsLtQ_none, jsLtQ_eq_jsGtQ]
  · intro h1
    simp [updateSoilDetails, updateSoilDetailsInner, truthyQ_none, h1]
  · intro h1
    simp [updateSoilDetails, updateSoilDetailsInner, truthyQ_none, h1]
  · intro hcontra
    by_cases h1 : truthyQ d.phMin = true
    · by_cases h2 : truthyQ d.phMax = true
      · by_cases h3 : jsGtQ d.phMin d.phMax = true
        · simp [updateSoilDetailsInner, truthyQ_none, h1, h2, h3, jsGtQ_none] at hcontra
        · rw [Bool.not_eq_true] at h3
          simp [updateSoilDetailsInner, truthyQ_none, h1, h2, h3, jsGtQ_none, jsLtQ_none,
            jsLtQ_eq_jsGtQ] at hcontra
      · rw [Bool.not_eq_true] at h2
        simp [updateSoilDetailsInner, truthyQ_none, h1, h2] at hcontra
    · rw [Bool.not_eq_true] at h1
      simp [updateSoilDetailsInner, truthyQ_none, h1] at hcontra

/-- C3 (witness): the amended statement applied at the stored row with
ph_min = 6, ph_max = 8 and a patch supplying ph_min = 9, ph_max = 8. -/
theorem c3_amended_update_messages_witness :
    updateSoilDetailsInner { name := "loam", phMin := some 6, phMax := some 8 }
      { phMin := some 9, phMax := some 8 } = .error "ph_min is greater than ph_max" ∧
    updateSoilDetails { name := "loam", phMin := some 6, phMax := some 8 }
      { phMin := some 9, phMax := some 8 } = .error "Failed to update soil" :=
  (c3_amended_update_messages { name := "loam", phMin := some 6, phMax := some 8 }
    { phMin := some 9, phMax := some 8 }).1 (by decide) (by decide) (by decide)

/-- C6: for both list services, a page beyond the computed total is not
an error: the result carries zero rows, the metadata attaches
hasExceededPage = true exactly when totalItems > 0 and
currentPage > totalPages, and with totalItems = 0 the entry is omitted
even though currentPage > totalPages = 0. -/
theorem c6_exceeded_page_flag_and_zero_rows {α : Type} (table : List α) (limit page : ℕ)
    (hl : 1 ≤ limit) :
    ((getAllSoils table limit page).pagination.hasExceededPage = some true ↔
      0 < table.length ∧ (getAllSoils table limit page).pagination.totalPages < page) ∧
    (table.length = 0 → (getAllSoils table limit page).pagination.hasExceededPage = none) ∧
    ((getAllSoils table limit page).pagination.totalPages < page →
      (getAllSoils table limit page).data = []) ∧
    ((getAllPlants table limit page).pagination.hasExceededPage = some true ↔
      0 < table.length ∧ (getAllPlants table limit page).pagination.totalPages < page) ∧
    (table.length = 0 → (getAllPlants table limit page).pagination.hasExceededPage = none) ∧
    ((getAllPlants table limit page).pagination.totalPages < page →
      (getAllPlants table limit page).data = []) := by
  refine ⟨?_, ?_, ?_, ?_, ?_, ?_⟩
  · exact exceeded_flag_iff table.length (mathCeilDiv table.length limit) page
  · intro h0
    have hrw : (getAllSoils table limit page).pagination.hasExceededPage =
        (if decide (table.length ≠ 0) && decide (mathCeilDiv table.length limit < page)
          then some (decide (mathCeilDiv table.length limit < page)) else none) := rfl
    rw [hrw, h0]
    simp
  · intro h
    exact paged_rows_empty table limit page hl h
  · exact exceeded_flag_iff table.length (mathCeilDiv table.length limit) page
  · intro h0
    have hrw : (getAllPlants table limit page).pagination.hasExceededPage =
        (if decide (table.length ≠ 0) && decide (mathCeilDiv table.length limit < page)
          then some (decide (mathCeilDiv table.length limit < page)) else none) := rfl
    rw [hrw, h0]
    simp
  · intro h
    exact paged_rows_empty table limit page hl h

/-- C6 (witness): the statement applied at a table of 3 rows with
limit 2 and page 5. -/
theorem c6_exceeded_page_flag_and_zero_rows_witness :
    ((getAllSoils (List.range 3) 2 5).pagination.hasExceededPage = some true ↔
      0 < (List.range 3).length ∧ (getAllSoils (List.range 3) 2 5).pagination.totalPages < 5) ∧
    ((List.range 3).length = 0 →
      (getAllSoils (List.range 3) 2 5).pagination.hasExceededPage = none) ∧
    ((getAllSoils (List.range 3) 2 5).pagination.totalPages < 5 →
      (getAllSoils (List.range 3) 2 5).data = []) ∧
    ((getAllPlants (List.range 3) 2 5).pagination.hasExceededPage = some true ↔
      0 < (List.range 3).length ∧ (getAllPlants (List.range 3) 2 5).pagination.totalPages < 5) ∧
    ((List.range 3).length = 0 →
      (getAllPlants (List.range 3) 2 5).pagination.hasExceededPage = none) ∧
    ((getAllPlants (List.range 3) 2 5).pagination.totalPages < 5 →
      (getAllPlants (List.range 3) 2 5).data = []) :=
  c6_exceeded_page_flag_and_zero_rows (List.range 3) 2 5 (by decide)

/-- C7 (counterexample): the claim says the supplied list
["  Tomato ", "tomato", ""] normalizes to ["Tomato"] exactly once, but
the sanitizer deduplicates case-sensitively after trimming, so the
concrete input normalizes to ["Tomato", "tomato"]. -/
theorem c7_counterexample_case_sensitive_dedup :
    sanitizeStringArray [JSVal.str "  Tomato ", JSVal.str "tomato", JSVal.str ""] =
      ["Tomato", "tomato"] ∧
    sanitizeStringArray [JSVal.str "  Tomato ", JSVal.str "tomato", JSVal.str ""] ≠
      ["Tomato"] := by
  refine ⟨by decide, by decide⟩

/-- C7 (amended): for every supplied list-valued field, sanitization
drops blank and non-string entries, trims the remaining entries,
deduplicates exact duplicates (case-sensitively, keeping first
occurrences), and rejects the payload when the sanitized list is empty
although the field was supplied; ["  Tomato ", "tomato", ""] normalizes
to ["Tomato", "tomato"], while the exact duplicate in
["  Tomato ", "Tomato", ""] collapses to ["Tomato"] once. -/
theorem c7_amended_sanitization (arr : List JSVal) :
    (∀ s ∈ sanitizeStringArray arr,
      s ≠ "" ∧ ∃ v, JSVal.str v ∈ arr ∧ jsTrim v ≠ "" ∧ s = jsTrim v) ∧
    (∀ v, JSVal.str v ∈ arr → jsTrim v ≠ "" → jsTrim v ∈ sanitizeStringArray arr) ∧
    (sanitizeStringArray arr).Nodup ∧
    (sanitizeStringArray arr ≠ [] →
      validateNonEmptyStringArray arr = .ok (sanitizeStringArray arr)) ∧
    (arr ≠ [] → sanitizeStringArray arr = [] →
      validateNonEmptyStringArray arr =
        .error "field must have at least one non-empty string") ∧
    sanitizeStringArray [JSVal.str "  Tomato ", JSVal.str "tomato", JSVal.str ""] =
      ["Tomato", "tomato"] ∧
    sanitizeStringArray [JSVal.str "  Tomato ", JSVal.str "Tomato", JSVal.str ""] =
      ["Tomato"] := by
  refine ⟨?_, ?_, jsSetDedup_nodup _, ?_, ?_, by decide, by decide⟩
  · intro s hs
    rw [sanitizeStringArray, jsSetDedup_mem, List.mem_filterMap] at hs
    obtain ⟨a, ha, hfa⟩ := hs
    cases a with
    | num q => simp at hfa
    | bool v => simp at hfa
    | null => simp at hfa
    | str v =>
      by_cases hv : jsTrim v = ""
      · simp [hv] at hfa
      · simp only [ne_eq, hv, not_false_eq_true, if_true] at hfa
        obtain rfl := Option.some.inj hfa
        exact ⟨hv, v, ha, hv, rfl⟩
  · intro v hv hnv
    rw [sanitizeStringArray, jsSetDedup_mem, List.mem_filterMap]
    refine ⟨JSVal.str v, hv, ?_⟩
    simp only [ne_eq, hnv, not_false_eq_true, if_true]
  · intro hne
    have harrne : arr ≠ [] := by
      intro he
      subst he
      exact hne rfl
    have h1 : ¬ arr.length < 1 := by
      have := List.length_pos.mpr harrne
      omega
    have h2 : (sanitizeStringArray arr).length > 0 := List.length_pos.mpr hne
    simp [validateNonEmptyStringArray, h1, h2]
  · intro harrne hempty
    have h1 : ¬ arr.length < 1 := by
      have := List.length_pos.mpr harrne
      omega
    simp [validateNonEmptyStringArray, h1, hempty]

/-- C7 (witness): the amended statement applied to a supplied field made
only of blank strings, which is rejected. -/
theorem c7_amended_sanitization_witness :
    validateNonEmptyStringArray [JSVal.str " ", JSVal.str ""] =
      .error "field must have at least one non-empty string" :=
  (c7_amended_sanitization [JSVal.str " ", JSVal.str ""]).2.2.2.2.1 (by decide) (by decide)

/-- C8: deactivating a PestType is a state transition, not a removal:
the table keeps its size, the record remains with isActive = false, the
default listing excludes it and the include-inactive listing contains
it. -/
theorem c8_soft_delete_visibility (table : List PestTypeRecord) (r : PestTypeRecord)
    (hr : r ∈ table) :
    (removePestType table r.id).length = table.length ∧
    { r with isActive := false } ∈ removePestType table r.id ∧
    { r with isActive := false } ∉ getAllPestTypes (removePestType table r.id) false ∧
    { r with isActive := false } ∈ getAllPestTypes (removePestType table r.id) true := by
  have hmem2 : ({ r with isActive := false } : PestTypeRecord) ∈ removePestType table r.id := by
    have heq : ({ r with isActive := false } : PestTypeRecord) =
        (fun t => if t.id = r.id then { t with isActive := false } else t) r := by
      simp
    rw [heq]
    exact List.mem_map_of_mem _ hr
  refine ⟨by simp [removePestType], hmem2, ?_, by simpa [getAllPestTypes] using hmem2⟩
  intro hmem
  simp only [getAllPestTypes] at hmem
  rw [if_neg (by simp)] at hmem
  have h2 := (List.mem_filter.mp hmem).2
  simp at h2

/-- C8 (witness): the statement applied to a one-row table. -/
theorem c8_soft_delete_visibility_witness :
    (removePestType [{ id := 1, name := "insect" }] 1).length =
      ([{ id := 1, name := "insect" }] : List PestTypeRecord).length ∧
    ({ id := 1, name := "insect", isActive := false } : PestTypeRecord) ∈
      removePestType [{ id := 1, name := "insect" }] 1 ∧
    ({ id := 1, name := "insect", isActive := false } : PestTypeRecord) ∉
      getAllPestTypes (removePestType [{ id := 1, name := "insect" }] 1) false ∧
    ({ id := 1, name := "insect", isActive := false } : PestTypeRecord) ∈
      getAllPestTypes (removePestType [{ id := 1, name := "insect" }] 1) true :=
  c8_soft_delete_visibility [{ id := 1, name := "insect" }] { id := 1, name := "insect" }
    (by decide)

/-- C9: deleting an existing Soil confirms existence first and answers
204; the record is gone afterwards, so a second delete of the same id
answers 404 Soil not found instead of a no-op success. -/
theorem c9_hard_delete_not_idempotent (table : List (ℕ × SoilRecord)) (soilId : ℕ)
    (h : getSoilById table soilId ≠ none) :
    (deleteSoilById table soilId).1.status = 204 ∧
    getSoilById (deleteSoilById table soilId).2 soilId = none ∧
    (deleteSoilById (deleteSoilById table soilId).2 soilId).1.status = 404 ∧
    (deleteSoilById (deleteSoilById table soilId).2 soilId).1.message =
      some "Soil not found" := by
  rcases hfind : getSoilById table soilId with _ | s
  · exact absurd hfind h
  · have hdel : deleteSoilById table soilId =
        ({ status := 204 }, removeSoil table soilId) := by
      simp [deleteSoilById, hfind]
    have hnone : getSoilById (removeSoil table soilId) soilId = none := by
      have hfn : (removeSoil table soilId).find? (fun row => decide (row.1 = soilId)) =
          none := by
        rw [List.find?_eq_none]
        intro x hx
        have hmem := List.mem_filter.mp hx
        simp at hmem ⊢
        exact hmem.2
      rw [getSoilById, hfn]
      rfl
    refine ⟨by rw [hdel], ?_, ?_, ?_⟩
    · rw [hdel]
      exact hnone
    · rw [hdel]
      show (deleteSoilById (removeSoil table soilId) soilId).1.status = 404
      simp [deleteSoilById, hnone]
    · rw [hdel]
      show (deleteSoilById (removeSoil table soilId) soilId).1.message = some "Soil not found"
      simp [deleteSoilById, hnone]

/-- C9 (witness): the statement applied to a one-row store. -/
theorem c9_hard_delete_not_idempotent_witness :
    (deleteSoilById [(1, { name := "loam" })] 1).1.status = 204 ∧
    getSoilById (deleteSoilById [(1, { name := "loam" })] 1).2 1 = none ∧
    (deleteSoilById (deleteSoilById [(1, { name := "loam" })] 1).2 1).1.status = 404 ∧
    (deleteSoilById (deleteSoilById [(1, { name := "loam" })] 1).2 1).1.message =
      some "Soil not found" :=
  c9_hard_delete_not_idempotent [(1, { name := "loam" })] 1 (by decide)

/-- C10: in the Soil and GrowthStage patch handlers, an allow-listed
field supplied with a falsy value (0, empty string, false, null) or not
supplied at all is omitted from the update payload, so the stored column
keeps its previous value; in particular ph_min and min_days cannot be
set to 0 through a patch. -/
theorem c10_falsy_patch_values_omitted (row b : SoilRow) (g gb : GrowthStageRow) :
    (jsvTruthy (some (JSVal.num 0)) = false ∧ jsvTruthy (some (JSVal.str "")) = false ∧
      jsvTruthy (some (JSVal.bool false)) = false ∧ jsvTruthy (some JSVal.null) = false ∧
      jsvTruthy none = false) ∧
    (jsvTruthy b.ph_min = false →
      (applySoilRowUpdate row (buildSoilUpdateDetails b)).ph_min = row.ph_min) ∧
    (jsvTruthy b.ph_max = false →
      (applySoilRowUpdate row (buildSoilUpdateDetails b)).ph_max = row.ph_max) ∧
    (jsvTruthy b.name = false →
      (applySoilRowUpdate row (buildSoilUpdateDetails b)).name = row.name) ∧
    (jsvTruthy b.color = false →
      (applySoilRowUpdate row (buildSoilUpdateDetails b)).color = row.color) ∧
    (jsvTruthy b.description = false →
      (applySoilRowUpdate row (buildSoilUpdateDetails b)).description = row.description) ∧
    (jsvTruthy gb.min_days = false →
      (applyGrowthStageRowUpdate g (buildGrowthStageUpdateDetails gb)).min_days =
        g.min_days) ∧
    (jsvTruthy gb.max_days = false →
      (applyGrowthStageRowUpdate g (buildGrowthStageUpdateDetails gb)).max_days =
        g.max_days) ∧
    (jsvTruthy gb.description = false →
      (applyGrowthStageRowUpdate g (buildGrowthStageUpdateDetails gb)).description =
        g.description) := by
  refine ⟨by decide, ?_, ?_, ?_, ?_, ?_, ?_, ?_, ?_⟩ <;>
    · intro h
      simp [applySoilRowUpdate, buildSoilUpdateDetails, applyGrowthStageRowUpdate,
        buildGrowthStageUpdateDetails, h]

/-- C10 (witness): a patch carrying ph_min = 0 leaves the stored ph_min
untouched. -/
theorem c10_falsy_patch_values_omitted_witness :
    (applySoilRowUpdate { ph_min := some (JSVal.num 6) }
      (buildSoilUpdateDetails { ph_min := some (JSVal.num 0) })).ph_min =
      ({ ph_min := some (JSVal.num 6) } : SoilRow).ph_min :=
  (c10_falsy_patch_values_omitted { ph_min := some (JSVal.num 6) }
    { ph_min := some (JSVal.num 0) } {} {}).2.1 (by decide)
